import Mathlib

/-
Shallow embedding of PmLogCtl.c (openwebos/pmlogctl), the command-line
administration tool for the PmLogLib logging subsystem.  C strings are
modelled as `List Char` without the terminating NUL: the end of the list
plays the role of the terminator, so meaningful inputs contain no
character of code 0.  The external logging library (PmLogLib) is modelled
as a registry of (name, level) pairs carried in a `World` value together
with a trace of the library calls made and the text written to stdout and
to the kernel message device.
-/

deriving instance DecidableEq for Except

namespace PmLogCtl

/-- Byte value of the first character of a C string; an empty list stands
for the terminating NUL byte, which has value 0. -/
def byte0 : List Char → Nat
  | [] => 0
  | c :: _ => c.toNat

/-- C `strcmp` on NUL-terminated strings. -/
def strcmp : List Char → List Char → Int
  | [], [] => 0
  | [], b :: _ => 0 - (b.toNat : Int)
  | a :: _, [] => (a.toNat : Int)
  | a :: s1, b :: s2 =>
      if a = b then strcmp s1 s2 else (a.toNat : Int) - (b.toNat : Int)

/-- C `strchr`, returning the index of the first occurrence of `c` rather
than a pointer into the string. -/
def strchrIdx : List Char → Char → Option Nat
  | [], _ => none
  | a :: rest, c => if a = c then some 0 else (strchrIdx rest c).map (· + 1)

/-- C `memcmp(s, t, n) == 0`: the first `n` bytes agree.  Reading past the
end of a list yields 0, matching the zero-filled name buffers the tool
compares (`ContextsInfo_t` is `memset` to 0 before use). -/
def memcmpEq : List Char → List Char → Nat → Bool
  | _, _, 0 => true
  | s0, t0, Nat.succ n => (byte0 s0 == byte0 t0) && memcmpEq s0.tail t0.tail n

/-- Byte value a C `tolower`-style fold produces inside `strcasecmp`:
uppercase ASCII letters are mapped to their lowercase byte value. -/
def lowerByte (c : Char) : Nat :=
  if 65 ≤ c.toNat ∧ c.toNat ≤ 90 then c.toNat + 32 else c.toNat

/-- C `strcasecmp`, comparing case-folded bytes until a difference or the
end of both strings. -/
def strcasecmp : List Char → List Char → Int
  | [], [] => 0
  | [], b :: _ => 0 - (lowerByte b : Int)
  | a :: _, [] => (lowerByte a : Int)
  | a :: s1, b :: s2 =>
      if lowerByte a = lowerByte b then strcasecmp s1 s2
      else (lowerByte a : Int) - (lowerByte b : Int)

/-- Well-formedness of the embedding of a C string: no interior NUL
character (a real C string ends at the first NUL). -/
def noNul (s0 : List Char) : Prop := ∀ c ∈ s0, c.toNat ≠ 0

instance (s0 : List Char) : Decidable (noNul s0) := by
  unfold noNul; infer_instance

/-! ## External library model (PmLogLib)

PmLogLib is an external collaborator; the definitions below model the
query/mutation primitives the tool consumes, per the library's interface:
a registry of uniquely named contexts each holding a level, a find-by-name
lookup, a get-or-create primitive, a level mutation that can fail, and
bidirectional level/name conversion tables mirroring the syslog ranks. -/

/-- Error codes of the external library that the tool distinguishes.
Successful calls are represented with `Except.ok`, standing for
`kPmLogErr_None`. -/
inductive PmLogErr where
  | unknown
  | contextNotFound
  deriving DecidableEq

/-- Name of the global context, `kPmLogGlobalContextName` from the
external library's header. -/
def kPmLogGlobalContextName : List Char := "<global>".toList

def kPmLogLevel_None : Int := -1

def kPmLogLevel_Emergency : Int := 0

def kPmLogLevel_Notice : Int := 5

/-- Level name table of the external library: syslog names with their
numeric ranks, plus the "none" sentinel. -/
def levelNames : List (List Char × Int) :=
  [("none".toList, -1), ("emerg".toList, 0), ("alert".toList, 1),
   ("crit".toList, 2), ("err".toList, 3), ("warning".toList, 4),
   ("notice".toList, 5), ("info".toList, 6), ("debug".toList, 7)]

/-- External `PmLogStringToLevel`: level name to numeric rank, absent for
an unrecognized token. -/
def PmLogStringToLevel (s0 : List Char) : Option Int :=
  (levelNames.find? (fun p => p.1 == s0)).map (fun p => p.2)

/-- External `PmLogLevelToString`: numeric rank to level name, absent for
an unrecognized rank. -/
def PmLogLevelToString (lvl : Int) : Option (List Char) :=
  (levelNames.find? (fun p => p.2 == lvl)).map (fun p => p.1)

/-- Level the external library assigns to a newly created context; the
exact value is internal to the library. -/
def kPmLogDefaultLevel : Int := 7

/-- Maximum number of contexts, `PMLOG_MAX_NUM_CONTEXTS` from the external
library's header; the tool's snapshot buffer holds one more entry. -/
def PMLOG_MAX_NUM_CONTEXTS : Nat := 63

/-- One call into the external library, as recorded in the trace.  A
context handle is identified by the context's (unique) name. -/
inductive LibCall where
  | findContext (name : List Char)
  | getContext (name : List Char)
  | setContextLevel (name : List Char) (lvl : Int)
  | print (name : List Char) (lvl : Int) (msg : List Char)
  deriving DecidableEq

/-- One line of output the tool prints, in structured form (each
constructor stands for one `printf` format string of PmLogCtl.c). -/
inductive OutMsg where
  | suggestHelp
  | invalidParameter (arg : List Char)
  | invalidLevel (arg : List Char)
  | invalidContext (arg : List Char)
  | contextNotFound (name : List Char)
  | noContextsMatched (pat : List Char)
  | contextNotSpecified
  | levelNotSpecified
  | messageNotSpecified
  | contextAlreadyDefined (name : List Char)
  | errorGettingContexts (e : PmLogErr)
  | errorSettingLevel (e : PmLogErr)
  | errorLogging (e : PmLogErr)
  | errorDefiningContext (e : PmLogErr)
  | errorGettingFlushContext (e : PmLogErr)
  | settingContextLevel (name : List Char)
  | showContext (name : List Char) (levelStr : List Char)
  | pRequiresValue
  | errorOpeningKmsg
  | errorWritingKmsg
  | noCommand
  | invalidCommand (cmd : List Char)
  | usage
  deriving DecidableEq

/-- State of one tool invocation: the external registry (list of
(name, level) pairs), the set of context names for which a level-set call
fails, whether kernel-device I/O fails, the trace of library calls, the
lines written to the kernel message device, and the stdout messages. -/
structure World where
  ctxs : List (List Char × Int)
  setFailNames : List (List Char)
  kmsgOpenFails : Bool
  kmsgWriteFails : Bool
  calls : List LibCall
  kmsg : List (List Char)
  out : List OutMsg
  deriving DecidableEq

/-- Append one stdout message. -/
def World.say (w : World) (m : OutMsg) : World :=
  { w with out := w.out ++ [m] }

/-- External `PmLogFindContext`: look a context up by name; an error if it
is absent. -/
def World.findContext (w : World) (name : List Char) :
    Except PmLogErr (List Char) × World :=
  let w1 := { w with calls := w.calls ++ [LibCall.findContext name] }
  if w.ctxs.any (fun c => c.1 == name) then (Except.ok name, w1)
  else (Except.error PmLogErr.contextNotFound, w1)

/-- External `PmLogGetContext`: get-or-create a context by name. -/
def World.getContext (w : World) (name : List Char) :
    Except PmLogErr (List Char) × World :=
  let w1 := { w with calls := w.calls ++ [LibCall.getContext name] }
  if w.ctxs.any (fun c => c.1 == name) then (Except.ok name, w1)
  else (Except.ok name, { w1 with ctxs := w1.ctxs ++ [(name, kPmLogDefaultLevel)] })

/-- External `PmLogSetContextLevel`: set a context's level; fails (leaving
the registry unchanged) exactly for the contexts in `setFailNames`. -/
def World.setContextLevel (w : World) (name : List Char) (lvl : Int) :
    Except PmLogErr Unit × World :=
  let w1 := { w with calls := w.calls ++ [LibCall.setContextLevel name lvl] }
  if w.setFailNames.any (fun n => n == name) then
    (Except.error PmLogErr.unknown, w1)
  else
    (Except.ok (),
      { w1 with ctxs := w1.ctxs.map (fun c => if c.1 == name then (c.1, lvl) else c) })

/-- External `PmLogPrint` / `PmLogPrint_`: emit a message on a context. -/
def World.print (w : World) (name : List Char) (lvl : Int) (msg : List Char) :
    Except PmLogErr Unit × World :=
  (Except.ok (), { w with calls := w.calls ++ [LibCall.print name lvl msg] })

/-! ## Name resolution and matching (PmLogCtl.c) -/

/-- Outcome of a subcommand.  Modelled from the spec: the repository's
PmLogCtl.h (not among the sources) declares the `Result` enum with the
four distinct logical outcomes the spec lists. -/
inductive Result where
  | RESULT_OK
  | RESULT_HELP
  | RESULT_PARAM_ERR
  | RESULT_RUN_ERR
  deriving DecidableEq

def EXIT_SUCCESS : Nat := 0

def EXIT_FAILURE : Nat := 1

/-- C `PrvIsWildcardContextName`: the name contains a `*`. -/
def PrvIsWildcardContextName (matchContextName : List Char) : Bool :=
  (strchrIdx matchContextName '*').isSome

/-- C `PrvMatchContextName`: match a context name against a pattern; a
`none` pattern matches everything, a pattern without `*` must compare
equal, and a pattern with a `*` matches on the bytes before the first `*`
(everything, when there are none). -/
def PrvMatchContextName (contextName : List Char)
    (matchContextName : Option (List Char)) : Bool :=
  match matchContextName with
  | none => true
  | some m =>
    match strchrIdx m '*' with
    | none => strcmp contextName m == 0
    | some matchPrefixLen =>
      if matchPrefixLen == 0 then true
      else memcmpEq contextName m matchPrefixLen

/-- Entry of the tool's context snapshot (`ContextInfo_t`): the context's
name (also standing for its handle) and its level at enumeration time. -/
abbrev ContextInfo := List Char × Int

/-- Insertion step of the snapshot sort, ordering by C `strcasecmp` on the
names (the comparator `SortCmpContextInfoByName`). -/
def insertByName (x : ContextInfo) : List ContextInfo → List ContextInfo
  | [] => [x]
  | y :: ys => if strcasecmp x.1 y.1 ≤ 0 then x :: y :: ys else y :: insertByName x ys

/-- Sort of the snapshot by `SortCmpContextInfoByName` (the `qsort` call of
`PrvGetContextList`). -/
def sortByName : List ContextInfo → List ContextInfo
  | [] => []
  | x :: xs => insertByName x (sortByName xs)

/-- Enumeration loop of `PrvGetContextList`: walk the registry in index
order, keep the contexts matching the pattern, and fail with
`kPmLogErr_Unknown` when a match would overflow the snapshot buffer of
`PMLOG_MAX_NUM_CONTEXTS + 1` entries. -/
def collectMatches (matchContextName : Option (List Char)) :
    List ContextInfo → Nat → Except PmLogErr (List ContextInfo)
  | [], _ => Except.ok []
  | c :: rest, numContexts =>
    if PrvMatchContextName c.1 matchContextName then
      if numContexts ≥ PMLOG_MAX_NUM_CONTEXTS + 1 then Except.error PmLogErr.unknown
      else
        match collectMatches matchContextName rest (numContexts + 1) with
        | Except.ok l => Except.ok (c :: l)
        | Except.error e => Except.error e
    else collectMatches matchContextName rest numContexts

/-- C `PrvGetContextList`: enumerate the registry, treat zero registered
contexts as `kPmLogErr_Unknown`, filter through `PrvMatchContextName`, and
sort the matches case-insensitively by name. -/
def PrvGetContextList (ctxs : List ContextInfo)
    (matchContextName : Option (List Char)) : Except PmLogErr (List ContextInfo) :=
  if ctxs.length ≤ 0 then Except.error PmLogErr.unknown
  else
    match collectMatches matchContextName ctxs 0 with
    | Except.error e => Except.error e
    | Except.ok l => Except.ok (sortByName l)

/-- C `PrvResolveContextNameAlias`: `.` stands for the global context's
name; anything else passes through. -/
def PrvResolveContextNameAlias (contextName : List Char) : List Char :=
  if strcmp contextName ".".toList == 0 then kPmLogGlobalContextName
  else contextName

/-! ## Subcommand handlers

Each `DoCmd…` receives the argument vector with the command name already
stripped (the C handlers receive `argc - 1, &argv[1]` and start their
loops at index 1, so `args` below holds `argv[2..]` of the process).  The
argument-parsing `while` loops of the C handlers become recursions over
`args`; an early `return` inside a loop becomes `Except.error` carrying
the result and the final world. -/

/-- Level string shown by `ShowContext` for a context, `"Unknown"` when the
level has no name. -/
def showLevelStr (lvl : Int) : List Char :=
  (PmLogLevelToString lvl).getD ("Unknown".toList)

/-- Pattern argument of `show`: the resolved first argument, or `none`
when no argument was given. -/
def showPattern (args : List (List Char)) : Option (List Char) :=
  match args with
  | a1 :: _ => some (PrvResolveContextNameAlias a1)
  | [] => none

/-- C `DoCmdShow`. -/
def DoCmdShow (args : List (List Char)) (w : World) : Result × World :=
  match args with
  | _ :: a2 :: _ => (Result.RESULT_PARAM_ERR, w.say (OutMsg.invalidParameter a2))
  | _ =>
    let matchContextName : Option (List Char) := showPattern args
    match PrvGetContextList w.ctxs matchContextName with
    | Except.error e => (Result.RESULT_RUN_ERR, w.say (OutMsg.errorGettingContexts e))
    | Except.ok infos =>
      let w1 := infos.foldl (fun acc c => acc.say (OutMsg.showContext c.1 (showLevelStr c.2))) w
      match matchContextName with
      | some m =>
        if infos.length == 0 then
          if PrvIsWildcardContextName m then
            (Result.RESULT_RUN_ERR, w1.say (OutMsg.noContextsMatched m))
          else
            (Result.RESULT_RUN_ERR, w1.say (OutMsg.contextNotFound m))
        else (Result.RESULT_OK, w1)
      | none => (Result.RESULT_OK, w1)

/-- Argument loop of `DoCmdSet`: fill the name slot (resolving the alias
and, for a non-wildcard name, looking the context up at once), then the
level slot; any further argument is a parameter error. -/
def DoCmdSetLoop (w : World) (args : List (List Char))
    (matchContextName matchedContext : Option (List Char)) (levelIntP : Option Int) :
    Except (Result × World)
      (World × Option (List Char) × Option (List Char) × Option Int) :=
  match args with
  | [] => Except.ok (w, matchContextName, matchedContext, levelIntP)
  | arg :: rest =>
    match matchContextName with
    | none =>
      let m := PrvResolveContextNameAlias arg
      if PrvIsWildcardContextName m then
        DoCmdSetLoop w rest (some m) matchedContext levelIntP
      else
        match World.findContext w m with
        | (Except.ok h, w1) => DoCmdSetLoop w1 rest (some m) (some h) levelIntP
        | (Except.error _, w1) =>
          Except.error (Result.RESULT_PARAM_ERR, w1.say (OutMsg.contextNotFound m))
    | some _ =>
      match levelIntP with
      | none =>
        match PmLogStringToLevel arg with
        | none => Except.error (Result.RESULT_PARAM_ERR, w.say (OutMsg.invalidLevel arg))
        | some lvl => DoCmdSetLoop w rest matchContextName matchedContext (some lvl)
      | some _ =>
        Except.error (Result.RESULT_PARAM_ERR, w.say (OutMsg.invalidParameter arg))

/-- Wildcard loop of `DoCmdSet`: set the level of every matched context in
snapshot order, aborting on the first failure of the external library. -/
def DoCmdSetApply (lvl : Int) : List ContextInfo → World → Result × World
  | [], w => (Result.RESULT_OK, w)
  | c :: rest, w =>
    let w1 := w.say (OutMsg.settingContextLevel c.1)
    match World.setContextLevel w1 c.1 lvl with
    | (Except.ok _, w2) => DoCmdSetApply lvl rest w2
    | (Except.error e, w2) => (Result.RESULT_RUN_ERR, w2.say (OutMsg.errorSettingLevel e))

/-- C `DoCmdSet`. -/
def DoCmdSet (args : List (List Char)) (w : World) : Result × World :=
  match DoCmdSetLoop w args none none none with
  | Except.error rw => rw
  | Except.ok (w1, matchContextName, matchedContext, levelIntP) =>
    match matchContextName with
    | none => (Result.RESULT_PARAM_ERR, w1.say OutMsg.contextNotSpecified)
    | some m =>
      match levelIntP with
      | none => (Result.RESULT_PARAM_ERR, w1.say OutMsg.levelNotSpecified)
      | some lvl =>
        match matchedContext with
        | none =>
          match PrvGetContextList w1.ctxs (some m) with
          | Except.error e =>
            (Result.RESULT_RUN_ERR, w1.say (OutMsg.errorGettingContexts e))
          | Except.ok infos =>
            if infos.length == 0 then
              (Result.RESULT_RUN_ERR, w1.say (OutMsg.noContextsMatched m))
            else DoCmdSetApply lvl infos w1
        | some h =>
          let w2 := w1.say (OutMsg.settingContextLevel m)
          match World.setContextLevel w2 h lvl with
          | (Except.ok _, w3) => (Result.RESULT_OK, w3)
          | (Except.error e, w3) =>
            (Result.RESULT_RUN_ERR, w3.say (OutMsg.errorSettingLevel e))

/-- Argument loop of `DoCmdLog`: fill context (exact lookup only), level
(rejecting the `-1` "none" sentinel), then message; any further argument
is a parameter error. -/
def DoCmdLogLoop (w : World) (args : List (List Char))
    (contextName context : Option (List Char)) (levelIntP : Option Int)
    (msg : Option (List Char)) :
    Except (Result × World)
      (World × Option (List Char) × Option (List Char) × Option Int ×
        Option (List Char)) :=
  match args with
  | [] => Except.ok (w, contextName, context, levelIntP, msg)
  | arg :: rest =>
    match contextName with
    | none =>
      let cn := PrvResolveContextNameAlias arg
      match World.findContext w cn with
      | (Except.ok h, w1) => DoCmdLogLoop w1 rest (some cn) (some h) levelIntP msg
      | (Except.error _, w1) =>
        Except.error (Result.RESULT_PARAM_ERR, w1.say (OutMsg.invalidContext arg))
    | some _ =>
      match levelIntP with
      | none =>
        match PmLogStringToLevel arg with
        | none => Except.error (Result.RESULT_PARAM_ERR, w.say (OutMsg.invalidLevel arg))
        | some lvl =>
          if lvl == -1 then
            Except.error (Result.RESULT_PARAM_ERR, w.say (OutMsg.invalidLevel arg))
          else DoCmdLogLoop w rest contextName context (some lvl) msg
      | some _ =>
        match msg with
        | none => DoCmdLogLoop w rest contextName context levelIntP (some arg)
        | some _ =>
          Except.error (Result.RESULT_PARAM_ERR, w.say (OutMsg.invalidParameter arg))

/-- Initial slot values of `DoCmdLog`'s loop: with exactly one argument,
context and level default to the global context at "notice" before the
loop runs, so the argument lands in the message slot. -/
def logStart (args : List (List Char)) :
    Option (List Char) × Option (List Char) × Option Int :=
  if args.length == 1 then
    (some kPmLogGlobalContextName, some kPmLogGlobalContextName,
      some kPmLogLevel_Notice)
  else (none, none, none)

/-- C `DoCmdLog`.  With exactly one argument, context and level default to
the global context at "notice" before the loop runs, so the argument lands
in the message slot. -/
def DoCmdLog (args : List (List Char)) (w : World) : Result × World :=
  match DoCmdLogLoop w args (logStart args).1 (logStart args).2.1
      (logStart args).2.2 none with
  | Except.error rw => rw
  | Except.ok (w1, contextName, context, levelIntP, msg) =>
    match contextName with
    | none => (Result.RESULT_PARAM_ERR, w1.say OutMsg.contextNotSpecified)
    | some _ =>
      match levelIntP with
      | none => (Result.RESULT_PARAM_ERR, w1.say OutMsg.levelNotSpecified)
      | some lvl =>
        match msg with
        | none => (Result.RESULT_PARAM_ERR, w1.say OutMsg.messageNotSpecified)
        | some m =>
          match World.print w1 (context.getD kPmLogGlobalContextName) lvl m with
          | (Except.ok _, w2) => (Result.RESULT_OK, w2)
          | (Except.error e, w2) =>
            (Result.RESULT_RUN_ERR, w2.say (OutMsg.errorLogging e))

/-- C `WriteKMsg`: open the kernel message device and write one line,
`<priority>` (decimal, in angle brackets) followed by the message and a
newline; a negative priority writes no priority field. -/
def WriteKMsg (w : World) (priority : Int) (msgStr : List Char) : Result × World :=
  if w.kmsgOpenFails then (Result.RESULT_RUN_ERR, w.say OutMsg.errorOpeningKmsg)
  else
    let priorityStr : List Char :=
      if priority ≥ 0 then
        "<".toList ++ Nat.toDigits 10 priority.toNat ++ ">".toList
      else []
    if w.kmsgWriteFails then (Result.RESULT_RUN_ERR, w.say OutMsg.errorWritingKmsg)
    else
      (Result.RESULT_OK, { w with kmsg := w.kmsg ++ [priorityStr ++ msgStr ++ [Char.ofNat 10]] })

/-- Argument loop of `DoCmdKLog`: a `-p` flag takes the next argument as
the level; the first non-flag argument is the message; any further
argument (or any other flag) is a parameter error. -/
def DoCmdKLogLoop (w : World) (args : List (List Char)) (level : Int)
    (msg : Option (List Char)) :
    Except (Result × World) (World × Int × Option (List Char)) :=
  match args with
  | [] => Except.ok (w, level, msg)
  | arg :: rest =>
    if byte0 arg == ('-').toNat then
      if strcmp arg "-p".toList == 0 then
        match rest with
        | [] => Except.error (Result.RESULT_PARAM_ERR, w.say OutMsg.pRequiresValue)
        | v :: rest2 =>
          match PmLogStringToLevel v with
          | none =>
            Except.error (Result.RESULT_PARAM_ERR, w.say (OutMsg.invalidLevel v))
          | some l => DoCmdKLogLoop w rest2 l msg
      else Except.error (Result.RESULT_PARAM_ERR, w.say (OutMsg.invalidParameter arg))
    else
      match msg with
      | none => DoCmdKLogLoop w rest level (some arg)
      | some _ =>
        Except.error (Result.RESULT_PARAM_ERR, w.say (OutMsg.invalidParameter arg))

/-- C `DoCmdKLog`: the level defaults to "notice" and a `-p` flag
overrides it; the message goes to the kernel device via `WriteKMsg`. -/
def DoCmdKLog (args : List (List Char)) (w : World) : Result × World :=
  match DoCmdKLogLoop w args kPmLogLevel_Notice none with
  | Except.error rw => rw
  | Except.ok (w1, level, msg) =>
    match msg with
    | none => (Result.RESULT_PARAM_ERR, w1.say OutMsg.messageNotSpecified)
    | some m => WriteKMsg w1 level m

/-- C `DoCmdFlush`: emit an emergency-level message through the tool's
own context to force the buffers out. -/
def DoCmdFlush (w : World) : Result × World :=
  match World.findContext w ("PmLogCtl".toList) with
  | (Except.error e, w1) =>
    (Result.RESULT_RUN_ERR, w1.say (OutMsg.errorGettingFlushContext e))
  | (Except.ok h, w1) =>
    match World.print w1 h kPmLogLevel_Emergency ("Manually Flushing Buffers".toList) with
    | (Except.ok _, w2) => (Result.RESULT_OK, w2)
    | (Except.error e, w2) => (Result.RESULT_RUN_ERR, w2.say (OutMsg.errorLogging e))

/-- C `DoCmdReConf`: any argument is a parameter error; otherwise emit the
control message that makes the library reload its configuration. -/
def DoCmdReConf (args : List (List Char)) (w : World) : Result × World :=
  match args with
  | arg :: _ => (Result.RESULT_PARAM_ERR, w.say (OutMsg.invalidParameter arg))
  | [] =>
    match World.print w kPmLogGlobalContextName kPmLogLevel_Emergency
        ("!loglib loadconf".toList) with
    | (Except.ok _, w1) => (Result.RESULT_OK, w1)
    | (Except.error e, w1) => (Result.RESULT_RUN_ERR, w1.say (OutMsg.errorLogging e))

/-- Argument loop of `DoCmdDef`: the context slot is a parameter error if
the context already exists (checked with a find call); then an optional
level slot; any further argument is a parameter error. -/
def DoCmdDefLoop (w : World) (args : List (List Char))
    (contextName : Option (List Char)) (levelIntP : Option Int) :
    Except (Result × World) (World × Option (List Char) × Option Int) :=
  match args with
  | [] => Except.ok (w, contextName, levelIntP)
  | arg :: rest =>
    match contextName with
    | none =>
      let cn := PrvResolveContextNameAlias arg
      match World.findContext w cn with
      | (Except.ok _, w1) =>
        Except.error (Result.RESULT_PARAM_ERR, w1.say (OutMsg.contextAlreadyDefined cn))
      | (Except.error _, w1) => DoCmdDefLoop w1 rest (some cn) levelIntP
    | some _ =>
      match levelIntP with
      | none =>
        match PmLogStringToLevel arg with
        | none => Except.error (Result.RESULT_PARAM_ERR, w.say (OutMsg.invalidLevel arg))
        | some lvl => DoCmdDefLoop w rest contextName (some lvl)
      | some _ =>
        Except.error (Result.RESULT_PARAM_ERR, w.say (OutMsg.invalidParameter arg))

/-- C `DoCmdDef`: create the context through the get-or-create primitive
and, when a level was supplied, set it. -/
def DoCmdDef (args : List (List Char)) (w : World) : Result × World :=
  match DoCmdDefLoop w args none none with
  | Except.error rw => rw
  | Except.ok (w1, contextName, levelIntP) =>
    match contextName with
    | none => (Result.RESULT_PARAM_ERR, w1.say OutMsg.contextNotSpecified)
    | some cn =>
      match World.getContext w1 cn with
      | (Except.error e, w2) =>
        (Result.RESULT_RUN_ERR, w2.say (OutMsg.errorDefiningContext e))
      | (Except.ok h, w2) =>
        match levelIntP with
        | none => (Result.RESULT_OK, w2)
        | some lvl =>
          match World.setContextLevel w2 h lvl with
          | (Except.ok _, w3) => (Result.RESULT_OK, w3)
          | (Except.error e, w3) =>
            (Result.RESULT_RUN_ERR, w3.say (OutMsg.errorSettingLevel e))

/-- Command dispatch of `main` (everything up to the `SuggestHelp` hint
and the exit-code mapping).  `doCmdView` stands for the repository's
`DoCmdView` handler, which lives outside this file's sources and about
which the spec says nothing, so it is taken as a parameter. -/
def dispatchCmd (doCmdView : List (List Char) → World → Result × World)
    (args : List (List Char)) (w : World) : Result × World :=
  match args with
  | [] => (Result.RESULT_PARAM_ERR, w.say OutMsg.noCommand)
  | cmd :: rest =>
    if strcmp cmd "def".toList == 0 then DoCmdDef rest w
    else if strcmp cmd "log".toList == 0 then DoCmdLog rest w
    else if strcmp cmd "klog".toList == 0 then DoCmdKLog rest w
    else if strcmp cmd "reconf".toList == 0 then DoCmdReConf rest w
    else if strcmp cmd "set".toList == 0 then DoCmdSet rest w
    else if strcmp cmd "show".toList == 0 then DoCmdShow rest w
    else if strcmp cmd "view".toList == 0 then doCmdView rest w
    else if strcmp cmd "flush".toList == 0 then DoCmdFlush w
    else if strcmp cmd "help".toList == 0 || strcmp cmd "-help".toList == 0 then
      (Result.RESULT_HELP, w.say OutMsg.usage)
    else (Result.RESULT_PARAM_ERR, w.say (OutMsg.invalidCommand cmd))

/-- C `main`: dispatch, print the help hint after a parameter error, and
exit with success exactly for `RESULT_OK`.  `args` is the process argument
vector without the program name. -/
def runMain (doCmdView : List (List Char) → World → Result × World)
    (args : List (List Char)) (w : World) : Result × World × Nat :=
  let rw := dispatchCmd doCmdView args w
  let w2 := if rw.1 == Result.RESULT_PARAM_ERR then rw.2.say OutMsg.suggestHelp else rw.2
  (rw.1, w2, if rw.1 == Result.RESULT_OK then EXIT_SUCCESS else EXIT_FAILURE)

/-- Trivial stand-in for the out-of-scope `view` handler, used by concrete
evaluations. -/
def viewNop : List (List Char) → World → Result × World :=
  fun _ w => (Result.RESULT_OK, w)

/-- Small concrete world: one registered context (the global one), no
injected failures. -/
def w0 : World :=
  { ctxs := [(kPmLogGlobalContextName, 5)], setFailNames := [],
    kmsgOpenFails := false, kmsgWriteFails := false,
    calls := [], kmsg := [], out := [] }

/-! ## Lemmas about the C string model -/

theorem char_toNat_inj {a b : Char} (h : a.toNat = b.toNat) : a = b := by
  have ha := Char.ofNat_toNat a
  rw [h, Char.ofNat_toNat] at ha
  exact ha.symm

theorem noNul_tail {a : Char} {s0 : List Char} (h : noNul (a :: s0)) : noNul s0 :=
  fun c hc => h c (List.mem_cons_of_mem a hc)

theorem noNul_head {a : Char} {s0 : List Char} (h : noNul (a :: s0)) : a.toNat ≠ 0 :=
  h a (List.mem_cons_self a s0)

theorem strcmp_eq_zero_iff (s t : List Char) (hs : noNul s) (ht : noNul t) :
    strcmp s t = 0 ↔ s = t := by
  induction s generalizing t with
  | nil =>
    cases t with
    | nil => simp [strcmp]
    | cons b bs =>
      have hb := noNul_head ht
      simp only [strcmp]
      constructor
      · intro h; exfalso; omega
      · intro h; exact absurd h (by simp)
  | cons a s1 ih =>
    cases t with
    | nil =>
      have ha := noNul_head hs
      simp only [strcmp]
      constructor
      · intro h; exfalso; omega
      · intro h; exact absurd h (by simp)
    | cons b bs =>
      simp only [strcmp]
      by_cases hab : a = b
      · subst hab
        simp [ih bs (noNul_tail hs) (noNul_tail ht)]
      · rw [if_neg hab]
        constructor
        · intro h
          exfalso
          exact hab (char_toNat_inj (by omega))
        · intro h
          injection h with h1 _
          exact absurd h1 hab

theorem strchrIdx_eq_none_iff (s : List Char) (c : Char) :
    strchrIdx s c = none ↔ ∀ x ∈ s, x ≠ c := by
  induction s with
  | nil => simp [strchrIdx]
  | cons a rest ih =>
    by_cases hac : a = c
    · simp [strchrIdx, hac]
    · simp [strchrIdx, hac, ih]

theorem strchrIdx_zero (s : List Char) (c : Char) (h : strchrIdx s c = some 0) :
    ∃ rest, s = c :: rest := by
  cases s with
  | nil => exact absurd h (by simp [strchrIdx])
  | cons a rest =>
    by_cases hac : a = c
    · exact ⟨rest, by rw [hac]⟩
    · exfalso
      rw [strchrIdx, if_neg hac] at h
      cases hr : strchrIdx rest c with
      | none => rw [hr] at h; simp at h
      | some n => rw [hr] at h; simp at h

theorem strchrIdx_succ (s : List Char) (c : Char) (n : Nat)
    (h : strchrIdx s c = some (n + 1)) :
    ∃ a rest, s = a :: rest ∧ a ≠ c ∧ strchrIdx rest c = some n := by
  cases s with
  | nil => exact absurd h (by simp [strchrIdx])
  | cons a rest =>
    by_cases hac : a = c
    · rw [strchrIdx, if_pos hac] at h
      simp at h
    · rw [strchrIdx, if_neg hac] at h
      cases hr : strchrIdx rest c with
      | none => rw [hr] at h; simp at h
      | some m =>
        rw [hr] at h
        simp only [Option.map_some', Option.some.injEq] at h
        refine ⟨a, rest, rfl, hac, ?_⟩
        rw [hr]
        exact congrArg some (by omega)

/-- Predicate selecting the characters before the first `*`: the prefix a
wildcard pattern matches on is `p.takeWhile notStar`. -/
def notStar (x : Char) : Bool := x != '*'

theorem notStar_true {a : Char} (h : a ≠ '*') : notStar a = true := by
  simp [notStar, h]

theorem strchrIdx_zero_takeWhile (s : List Char)
    (h : strchrIdx s '*' = some 0) : s.takeWhile notStar = [] := by
  obtain ⟨rest, rfl⟩ := strchrIdx_zero s '*' h
  exact List.takeWhile_cons_of_neg (by simp [notStar])

theorem memcmpEq_star (p : List Char) (idx : Nat) :
    ∀ s0 : List Char, noNul p → strchrIdx p '*' = some idx → idx ≠ 0 →
      (memcmpEq s0 p idx = true ↔ p.takeWhile notStar <+: s0) := by
  induction p generalizing idx with
  | nil => intro s0 _ h _; exact absurd h (by simp [strchrIdx])
  | cons a rest ih =>
    intro s0 hp h hpos
    cases idx with
    | zero => exact absurd rfl hpos
    | succ idx1 =>
      obtain ⟨a', rest', heq, ha, hrest⟩ := strchrIdx_succ _ _ _ h
      injection heq with h1 h2
      subst h1; subst h2
      rw [List.takeWhile_cons_of_pos (notStar_true ha)]
      cases s0 with
      | nil =>
        have ha0 := noNul_head hp
        simp only [memcmpEq, byte0, List.tail]
        constructor
        · intro hmm
          exfalso
          rw [Bool.and_eq_true, beq_iff_eq] at hmm
          exact ha0 hmm.1.symm
        · intro hpre
          exact absurd (List.prefix_nil.mp hpre) (by simp)
      | cons b bs =>
        simp only [memcmpEq, byte0, List.tail, List.cons_prefix_cons]
        by_cases hba : b.toNat = a.toNat
        · have hbea : b = a := char_toNat_inj hba
          subst hbea
          simp only [beq_self_eq_true, Bool.true_and, true_and]
          cases idx1 with
          | zero =>
            rw [strchrIdx_zero_takeWhile rest hrest]
            exact iff_of_true rfl (List.nil_prefix)
          | succ idx2 =>
            exact ih (idx2 + 1) bs (noNul_tail hp) hrest (by omega)
        · constructor
          · intro hmm
            exfalso
            rw [Bool.and_eq_true, beq_iff_eq] at hmm
            exact hba hmm.1
          · intro hpre
            exfalso
            exact hba (by rw [hpre.1])

/-! ## Claim theorems -/

/-- C1: a `none` pattern matches every context name; a pattern with no `*`
matches exactly the equal name (case-sensitively); a pattern with a `*`
matches according to its part before the first `*` alone — every name when
that part is empty, otherwise exactly the names it is a prefix of — so the
characters after the `*` never influence the outcome. -/
theorem matchContextName_spec (s0 p : List Char) (hs : noNul s0) (hp : noNul p) :
    PrvMatchContextName s0 none = true ∧
    ('*' ∉ p → (PrvMatchContextName s0 (some p) = true ↔ s0 = p)) ∧
    ('*' ∈ p → (PrvMatchContextName s0 (some p) = true ↔
      (p.takeWhile notStar = [] ∨ p.takeWhile notStar <+: s0))) := by
  refine ⟨rfl, ?_, ?_⟩
  · intro hnost
    have hnone : strchrIdx p '*' = none :=
      (strchrIdx_eq_none_iff p '*').mpr (fun x hx => by
        intro hxc; exact hnost (hxc ▸ hx))
    simp only [PrvMatchContextName, hnone, beq_iff_eq]
    exact strcmp_eq_zero_iff s0 p hs hp
  · intro hst
    cases hidx : strchrIdx p '*' with
    | none =>
      exfalso
      exact ((strchrIdx_eq_none_iff p '*').mp hidx '*' hst) rfl
    | some idx =>
      cases idx with
      | zero =>
        have htw0 := strchrIdx_zero_takeWhile p hidx
        have hm : PrvMatchContextName s0 (some p) = true := by
          simp [PrvMatchContextName, hidx]
        exact iff_of_true hm (Or.inl htw0)
      | succ idx1 =>
        have hne : p.takeWhile notStar ≠ [] := by
          obtain ⟨a, rest, heq, ha, _⟩ := strchrIdx_succ _ _ _ hidx
          subst heq
          rw [List.takeWhile_cons_of_pos (notStar_true ha)]
          simp
        have hm : PrvMatchContextName s0 (some p) = memcmpEq s0 p (idx1 + 1) := by
          simp [PrvMatchContextName, hidx]
        rw [hm, memcmpEq_star p (idx1 + 1) s0 hp hidx (by omega)]
        constructor
        · intro h; exact Or.inr h
        · intro h
          cases h with
          | inl h => exact absurd h hne
          | inr h => exact h

/-- C1 witness: the match predicate evaluated at concrete inputs. -/
theorem matchContextName_spec_witness :
    PrvMatchContextName ("foobar".toList) none = true ∧
    (PrvMatchContextName ("foobar".toList) (some ("foobar".toList)) = true ↔
      "foobar".toList = "foobar".toList) ∧
    (PrvMatchContextName ("foobar".toList) (some ("foo*".toList)) = true ↔
      ("foo*".toList.takeWhile notStar = [] ∨
        "foo*".toList.takeWhile notStar <+: "foobar".toList)) := by
  refine ⟨(matchContextName_spec ("foobar".toList) ("foobar".toList)
    (by decide) (by decide)).1, ?_, ?_⟩
  · exact (matchContextName_spec ("foobar".toList) ("foobar".toList)
      (by decide) (by decide)).2.1 (by decide)
  · exact (matchContextName_spec ("foobar".toList) ("foo*".toList)
      (by decide) (by decide)).2.2 (by decide)

/-- C10: alias resolution sends exactly the string `.` to the global
context's name, leaves every other string unchanged, and is idempotent on
every input. -/
theorem resolveContextNameAlias_spec :
    (∀ s0 : List Char, noNul s0 →
      (s0 = ".".toList → PrvResolveContextNameAlias s0 = kPmLogGlobalContextName) ∧
      (s0 ≠ ".".toList → PrvResolveContextNameAlias s0 = s0)) ∧
    (∀ s0 : List Char,
      PrvResolveContextNameAlias (PrvResolveContextNameAlias s0) =
        PrvResolveContextNameAlias s0) := by
  constructor
  · intro s0 hn
    have hiff := strcmp_eq_zero_iff s0 (".".toList) hn (by decide)
    constructor
    · intro heq
      simp only [PrvResolveContextNameAlias, beq_iff_eq]
      rw [if_pos (hiff.mpr heq)]
    · intro hne
      simp only [PrvResolveContextNameAlias, beq_iff_eq]
      rw [if_neg (fun h => hne (hiff.mp h))]
  · intro s0
    by_cases h : strcmp s0 (".".toList) = 0
    · simp only [PrvResolveContextNameAlias, beq_iff_eq, if_pos h]
      split <;> rfl
    · simp only [PrvResolveContextNameAlias, beq_iff_eq, if_neg h]

/-- C10 witness: alias resolution evaluated at `.` and at a plain name. -/
theorem resolveContextNameAlias_spec_witness :
    PrvResolveContextNameAlias (".".toList) = kPmLogGlobalContextName ∧
    PrvResolveContextNameAlias ("foo".toList) = "foo".toList := by
  exact ⟨(resolveContextNameAlias_spec.1 (".".toList) (by decide)).1 rfl,
    (resolveContextNameAlias_spec.1 ("foo".toList) (by decide)).2 (by decide)⟩

/-- C4 counterexample: `set` on a non-wildcard context name that is not
registered reports a parameter error (`DoCmdSet` returns
`RESULT_PARAM_ERR` when `PmLogFindContext` fails), not a run error. -/
theorem set_missing_context_concrete :
    (DoCmdSet (["bogus".toList, "err".toList]) w0).1 = Result.RESULT_PARAM_ERR ∧
    (DoCmdSet (["bogus".toList, "err".toList]) w0).1 ≠ Result.RESULT_RUN_ERR := by
  constructor
  · decide
  · decide

/-- C4 amended: when `set` is given a non-wildcard context name that does
not exist in the registry, the command reports a parameter error, printing
the context-not-found message. -/
theorem set_missing_context_param_err (w : World) (name0 : List Char)
    (rest : List (List Char))
    (hnw : PrvIsWildcardContextName (PrvResolveContextNameAlias name0) = false)
    (habs : ∀ c ∈ w.ctxs, c.1 ≠ PrvResolveContextNameAlias name0) :
    (DoCmdSet (name0 :: rest) w).1 = Result.RESULT_PARAM_ERR ∧
    (DoCmdSet (name0 :: rest) w).2.out =
      w.out ++ [OutMsg.contextNotFound (PrvResolveContextNameAlias name0)] := by
  have hany : w.ctxs.any (fun c => c.1 == PrvResolveContextNameAlias name0) = false := by
    rw [List.any_eq_false]
    intro c hc
    simpa using habs c hc
  simp [DoCmdSet, DoCmdSetLoop, hnw, World.findContext, hany, World.say]

/-- C4 amended, witness: evaluated on a registry holding only the global
context. -/
theorem set_missing_context_param_err_witness :
    (DoCmdSet (["bogus".toList, "err".toList]) w0).1 = Result.RESULT_PARAM_ERR ∧
    (DoCmdSet (["bogus".toList, "err".toList]) w0).2.out =
      w0.out ++ [OutMsg.contextNotFound (PrvResolveContextNameAlias ("bogus".toList))] := by
  exact set_missing_context_param_err w0 ("bogus".toList) (["err".toList])
    (by decide) (by decide)

/-- C6: `set` on a wildcard pattern that matches none of the registered
contexts (the enumeration succeeded, so at least one context is
registered) with a valid level token returns a run error, makes no
external call at all, and leaves the registry unchanged. -/
theorem set_wildcard_no_match (w : World) (pat lvlStr : List Char) (lvl : Int)
    (hw : PrvIsWildcardContextName (PrvResolveContextNameAlias pat) = true)
    (hlvl : PmLogStringToLevel lvlStr = some lvl)
    (hempty : PrvGetContextList w.ctxs (some (PrvResolveContextNameAlias pat)) =
      Except.ok []) :
    (DoCmdSet ([pat, lvlStr]) w).1 = Result.RESULT_RUN_ERR ∧
    (DoCmdSet ([pat, lvlStr]) w).2.calls = w.calls ∧
    (DoCmdSet ([pat, lvlStr]) w).2.ctxs = w.ctxs := by
  simp [DoCmdSet, DoCmdSetLoop, hw, hlvl, hempty, World.say]

/-- C6 witness: pattern `z*` against a registry holding only the global
context. -/
theorem set_wildcard_no_match_witness :
    (DoCmdSet (["z*".toList, "err".toList]) w0).1 = Result.RESULT_RUN_ERR ∧
    (DoCmdSet (["z*".toList, "err".toList]) w0).2.calls = w0.calls ∧
    (DoCmdSet (["z*".toList, "err".toList]) w0).2.ctxs = w0.ctxs := by
  exact set_wildcard_no_match w0 ("z*".toList) ("err".toList) 3
    (by decide) (by decide) (by decide)

/-- C7: enumeration over a registry with zero contexts is the internal
error `kPmLogErr_Unknown`, so `show` then reports a run error; when the
enumeration instead succeeds with zero matches (at least one context is
registered), `show` prints the wildcard no-contexts-matched message for a
wildcard pattern and the context-not-found message for an exact name, and
reports a run error in both cases. -/
theorem show_enumeration_spec :
    (∀ pat : Option (List Char),
      PrvGetContextList [] pat = Except.error PmLogErr.unknown) ∧
    (∀ (w : World) (args : List (List Char)), w.ctxs = [] → args.length ≤ 1 →
      (DoCmdShow args w).1 = Result.RESULT_RUN_ERR) ∧
    (∀ (w : World) (pat : List Char),
      PrvIsWildcardContextName (PrvResolveContextNameAlias pat) = true →
      PrvGetContextList w.ctxs (some (PrvResolveContextNameAlias pat)) =
        Except.ok [] →
      (DoCmdShow ([pat]) w).1 = Result.RESULT_RUN_ERR ∧
      (DoCmdShow ([pat]) w).2.out =
        w.out ++ [OutMsg.noContextsMatched (PrvResolveContextNameAlias pat)]) ∧
    (∀ (w : World) (pat : List Char),
      PrvIsWildcardContextName (PrvResolveContextNameAlias pat) = false →
      PrvGetContextList w.ctxs (some (PrvResolveContextNameAlias pat)) =
        Except.ok [] →
      (DoCmdShow ([pat]) w).1 = Result.RESULT_RUN_ERR ∧
      (DoCmdShow ([pat]) w).2.out =
        w.out ++ [OutMsg.contextNotFound (PrvResolveContextNameAlias pat)]) := by
  refine ⟨fun pat => rfl, ?_, ?_, ?_⟩
  · intro w args hctx hlen
    match args with
    | [] => simp [DoCmdShow, hctx, PrvGetContextList]
    | [a1] => simp [DoCmdShow, hctx, PrvGetContextList]
    | a1 :: a2 :: rest => simp at hlen
  · intro w pat hw hempty
    constructor
    · simp [DoCmdShow, showPattern, hempty, hw]
    · simp [DoCmdShow, showPattern, hempty, hw, World.say]
  · intro w pat hw hempty
    constructor
    · simp [DoCmdShow, showPattern, hempty, hw]
    · simp [DoCmdShow, showPattern, hempty, hw, World.say]

/-- C7 witness: the empty registry, and the one-context registry with a
non-matching wildcard and a non-matching exact name. -/
theorem show_enumeration_spec_witness :
    PrvGetContextList [] none = Except.error PmLogErr.unknown ∧
    (DoCmdShow ([]) { w0 with ctxs := [] }).1 = Result.RESULT_RUN_ERR ∧
    ((DoCmdShow (["z*".toList]) w0).1 = Result.RESULT_RUN_ERR ∧
      (DoCmdShow (["z*".toList]) w0).2.out =
        w0.out ++ [OutMsg.noContextsMatched (PrvResolveContextNameAlias ("z*".toList))]) ∧
    ((DoCmdShow (["nope".toList]) w0).1 = Result.RESULT_RUN_ERR ∧
      (DoCmdShow (["nope".toList]) w0).2.out =
        w0.out ++ [OutMsg.contextNotFound (PrvResolveContextNameAlias ("nope".toList))]) := by
  refine ⟨show_enumeration_spec.1 none, ?_, ?_, ?_⟩
  · exact show_enumeration_spec.2.1 { w0 with ctxs := [] } [] rfl (by decide)
  · exact show_enumeration_spec.2.2.1 w0 ("z*".toList) (by decide) (by decide)
  · exact show_enumeration_spec.2.2.2 w0 ("nope".toList) (by decide) (by decide)

/-- Whether the external library's level-set call fails for this context
in world `w`. -/
def failsIn (w : World) (c : ContextInfo) : Bool :=
  w.setFailNames.any (fun n => n == c.1)

/-- Longest leading run of matched contexts whose level-set succeeds. -/
def goodPart (w : World) (M : List ContextInfo) : List ContextInfo :=
  M.takeWhile (fun c => !failsIn w c)

/-- Remainder of the matched snapshot from the first failing context on. -/
def badPart (w : World) (M : List ContextInfo) : List ContextInfo :=
  M.drop (goodPart w M).length

/-- Registry after the level-set calls for the listed contexts, applied in
order. -/
def applyLevel (lvl : Int) (good : List ContextInfo)
    (ctxs : List ContextInfo) : List ContextInfo :=
  good.foldl (fun acc c => acc.map (fun d => if d.1 == c.1 then (d.1, lvl) else d)) ctxs

theorem DoCmdSetApply_spec (lvl : Int) :
    ∀ (M : List ContextInfo) (w : World),
      (DoCmdSetApply lvl M w).2.ctxs = applyLevel lvl (goodPart w M) w.ctxs ∧
      (DoCmdSetApply lvl M w).2.calls = w.calls ++
        ((goodPart w M) ++ (badPart w M).take 1).map
          (fun c => LibCall.setContextLevel c.1 lvl) ∧
      (DoCmdSetApply lvl M w).1 =
        (if badPart w M = [] then Result.RESULT_OK else Result.RESULT_RUN_ERR) := by
  intro M
  induction M with
  | nil =>
    intro w
    simp [DoCmdSetApply, goodPart, badPart, applyLevel]
  | cons c rest ih =>
    intro w
    by_cases hf : failsIn w c = true
    · have hgood : goodPart w (c :: rest) = [] :=
        List.takeWhile_cons_of_neg (by simp [hf])
      have hbad : badPart w (c :: rest) = c :: rest := by
        simp [badPart, hgood]
      rw [hgood, hbad]
      simp only [DoCmdSetApply, World.say, World.setContextLevel]
      rw [if_pos (by simpa [failsIn] using hf)]
      simp [applyLevel]
    · rw [Bool.not_eq_true] at hf
      have hgood : goodPart w (c :: rest) = c :: goodPart w rest :=
        List.takeWhile_cons_of_pos (by simp [hf])
      have hbad : badPart w (c :: rest) = badPart w rest := by
        simp [badPart, hgood, List.drop_succ_cons]
      rw [hgood, hbad]
      simp only [DoCmdSetApply, World.say, World.setContextLevel]
      have hcond : w.setFailNames.any (fun n => n == c.1) = false := hf
      rw [if_neg (by rw [hcond]; simp)]
      set w2 : World :=
        { w with
          out := w.out ++ [OutMsg.settingContextLevel c.1],
          calls := w.calls ++ [LibCall.setContextLevel c.1 lvl],
          ctxs := w.ctxs.map (fun d => if d.1 == c.1 then (d.1, lvl) else d) } with hw2
      have hsf : w2.setFailNames = w.setFailNames := rfl
      have hgp : goodPart w2 rest = goodPart w rest := by
        simp [goodPart, failsIn, hsf]
      have hbp : badPart w2 rest = badPart w rest := by
        simp [badPart, hgp, goodPart, failsIn, hsf]
      obtain ⟨ih1, ih2, ih3⟩ := ih w2
      refine ⟨?_, ?_, ?_⟩
      · rw [ih1, hgp]
        simp [applyLevel, hw2]
      · rw [ih2, hgp, hbp]
        simp [hw2]
      · rw [ih3, hbp]

theorem takeWhile_eq_take_of_first_false {α : Type} (p : α → Bool) :
    ∀ (l : List α) (k : Nat) (hk : k < l.length),
      (∀ (j : Nat) (hj : j < l.length), j < k → p (l.get ⟨j, hj⟩) = true) →
      p (l.get ⟨k, hk⟩) = false →
      l.takeWhile p = l.take k := by
  intro l
  induction l with
  | nil => intro k hk _ _; simp at hk
  | cons a rest ih =>
    intro k hk hbefore hat
    cases k with
    | zero =>
      simp only [List.get] at hat
      simp [List.takeWhile_cons_of_neg, hat]
    | succ k1 =>
      have hpa : p a = true := by
        have := hbefore 0 (by simp) (by omega)
        simpa using this
      rw [List.takeWhile_cons_of_pos hpa, List.take_succ_cons]
      congr 1
      refine ih k1 (by simpa using hk) ?_ ?_
      · intro j hj hjk
        have := hbefore (j + 1) (by simpa using Nat.succ_lt_succ hj) (by omega)
        simpa using this
      · simpa using hat

/-- C5: a `set` on a wildcard pattern whose enumeration matched the
nonempty snapshot `M` attempts the level-set calls in snapshot order: when
every call succeeds there are exactly as many calls as matched contexts
and all levels are applied with outcome OK; when the first failure is at
position `k`, exactly the calls up to and including position `k` are
attempted, the levels of positions before `k` stay applied (no rollback),
later contexts are never attempted, and the outcome is a run error. -/
theorem set_wildcard_apply_spec (w : World) (pat lvlStr : List Char) (lvl : Int)
    (M : List ContextInfo)
    (hw : PrvIsWildcardContextName (PrvResolveContextNameAlias pat) = true)
    (hlvl : PmLogStringToLevel lvlStr = some lvl)
    (hM : PrvGetContextList w.ctxs (some (PrvResolveContextNameAlias pat)) =
      Except.ok M)
    (hne : M ≠ []) :
    ((∀ c ∈ M, failsIn w c = false) →
      (DoCmdSet ([pat, lvlStr]) w).1 = Result.RESULT_OK ∧
      (DoCmdSet ([pat, lvlStr]) w).2.calls =
        w.calls ++ M.map (fun c => LibCall.setContextLevel c.1 lvl) ∧
      (DoCmdSet ([pat, lvlStr]) w).2.ctxs = applyLevel lvl M w.ctxs) ∧
    (∀ (k : Nat) (hk : k < M.length),
      (∀ (j : Nat) (hj : j < M.length), j < k → failsIn w (M.get ⟨j, hj⟩) = false) →
      failsIn w (M.get ⟨k, hk⟩) = true →
      (DoCmdSet ([pat, lvlStr]) w).1 = Result.RESULT_RUN_ERR ∧
      (DoCmdSet ([pat, lvlStr]) w).2.calls =
        w.calls ++ (M.take (k + 1)).map (fun c => LibCall.setContextLevel c.1 lvl) ∧
      (DoCmdSet ([pat, lvlStr]) w).2.ctxs = applyLevel lvl (M.take k) w.ctxs) := by
  have hred : DoCmdSet ([pat, lvlStr]) w = DoCmdSetApply lvl M w := by
    have hlen : ¬ (M.length == 0) = true := by
      simp [List.length_eq_zero, hne]
    simp [DoCmdSet, DoCmdSetLoop, hw, hlvl, hM, hlen]
  rw [hred]
  obtain ⟨h1, h2, h3⟩ := DoCmdSetApply_spec lvl M w
  constructor
  · intro hall
    have hgood : goodPart w M = M :=
      List.takeWhile_eq_self_iff.mpr (fun c hc => by simp [hall c hc])
    have hbad : badPart w M = [] := by
      simp [badPart, hgood, List.drop_length]
    refine ⟨?_, ?_, ?_⟩
    · rw [h3, if_pos hbad]
    · rw [h2, hgood, hbad]
      simp
    · rw [h1, hgood]
  · intro k hk hbefore hat
    simp only [List.get_eq_getElem] at hbefore hat
    have hgood : goodPart w M = M.take k := by
      refine takeWhile_eq_take_of_first_false _ M k hk ?_ ?_
      · intro j hj hjk
        simp only [List.get_eq_getElem]
        simp [hbefore j hj hjk]
      · simp only [List.get_eq_getElem]
        simp [hat]
    have hlentake : (M.take k).length = k := by
      rw [List.length_take]
      omega
    have hbad : badPart w M = M[k] :: M.drop (k + 1) := by
      unfold badPart
      rw [hgood, hlentake]
      exact List.drop_eq_getElem_cons hk
    refine ⟨?_, ?_, ?_⟩
    · have hbne : badPart w M ≠ [] := by
        rw [hbad]
        exact List.cons_ne_nil _ _
      rw [h3, if_neg hbne]
    · rw [h2, hgood, hbad]
      have htake : M.take k ++ [M[k]] = M.take (k + 1) := by
        rw [← List.take_concat_get M k hk, List.concat_eq_append]
      have hsmall : List.take 1 (M[k] :: M.drop (k + 1)) = [M[k]] := rfl
      rw [hsmall, htake]
    · rw [h1, hgood]

/-- C5 witness: pattern `f*` over a registry with contexts `fa`, `fb`, all
level-set calls succeeding. -/
theorem set_wildcard_apply_spec_witness :
    (DoCmdSet (["f*".toList, "err".toList])
      { w0 with ctxs := [("fa".toList, 6), ("fb".toList, 6)] }).1 =
        Result.RESULT_OK ∧
    (DoCmdSet (["f*".toList, "err".toList])
      { w0 with ctxs := [("fa".toList, 6), ("fb".toList, 6)] }).2.calls =
      ({ w0 with ctxs := [("fa".toList, 6), ("fb".toList, 6)] } : World).calls ++
        ([(("fa".toList : List Char), (6 : Int)), ("fb".toList, 6)]).map
          (fun c => LibCall.setContextLevel c.1 3) ∧
    (DoCmdSet (["f*".toList, "err".toList])
      { w0 with ctxs := [("fa".toList, 6), ("fb".toList, 6)] }).2.ctxs =
      applyLevel 3 ([(("fa".toList : List Char), (6 : Int)), ("fb".toList, 6)])
        ({ w0 with ctxs := [("fa".toList, 6), ("fb".toList, 6)] } : World).ctxs := by
  exact (set_wildcard_apply_spec
    { w0 with ctxs := [("fa".toList, 6), ("fb".toList, 6)] }
    ("f*".toList) ("err".toList) 3
    ([(("fa".toList : List Char), (6 : Int)), ("fb".toList, 6)])
    (by decide) (by decide) (by decide) (by decide)).1 (by decide)

theorem lowerByte_ne_zero {c : Char} (h : c.toNat ≠ 0) : lowerByte c ≠ 0 := by
  unfold lowerByte
  split <;> omega

theorem strcasecmp_neg (a : List Char) : ∀ b : List Char,
    strcasecmp a b = - strcasecmp b a := by
  induction a with
  | nil =>
    intro b
    cases b with
    | nil => simp [strcasecmp]
    | cons y ys => simp only [strcasecmp]; omega
  | cons x xs ih =>
    intro b
    cases b with
    | nil => simp only [strcasecmp]; omega
    | cons y ys =>
      simp only [strcasecmp]
      by_cases h : lowerByte x = lowerByte y
      · rw [if_pos h, if_pos h.symm]
        exact ih ys
      · rw [if_neg h, if_neg (fun hh => h hh.symm)]
        omega

theorem strcasecmp_le_total (a b : List Char) :
    strcasecmp a b ≤ 0 ∨ strcasecmp b a ≤ 0 := by
  have h := strcasecmp_neg a b
  omega

theorem strcasecmp_nil_le (c : List Char) : strcasecmp [] c ≤ 0 := by
  cases c <;> simp only [strcasecmp] <;> omega

theorem strcasecmp_trans : ∀ (a b c : List Char), noNul a → noNul b →
    strcasecmp a b ≤ 0 → strcasecmp b c ≤ 0 → strcasecmp a c ≤ 0 := by
  intro a
  induction a with
  | nil => intro b c _ _ _ _; exact strcasecmp_nil_le c
  | cons x xs ih =>
    intro b c ha hb hab hbc
    cases b with
    | nil =>
      exfalso
      have hx := lowerByte_ne_zero (noNul_head ha)
      simp only [strcasecmp] at hab
      omega
    | cons y ys =>
      cases c with
      | nil =>
        exfalso
        have hy := lowerByte_ne_zero (noNul_head hb)
        simp only [strcasecmp] at hbc
        omega
      | cons z zs =>
        simp only [strcasecmp] at hab hbc ⊢
        by_cases h1 : lowerByte x = lowerByte y
        · rw [if_pos h1] at hab
          by_cases h2 : lowerByte y = lowerByte z
          · rw [if_pos h2] at hbc
            rw [if_pos (h1.trans h2)]
            exact ih ys zs (noNul_tail ha) (noNul_tail hb) hab hbc
          · rw [if_neg h2] at hbc
            rw [if_neg (by omega : ¬ lowerByte x = lowerByte z)]
            omega
        · rw [if_neg h1] at hab
          by_cases h2 : lowerByte y = lowerByte z
          · rw [if_neg (by omega : ¬ lowerByte x = lowerByte z)]
            omega
          · rw [if_neg h2] at hbc
            rw [if_neg (by omega : ¬ lowerByte x = lowerByte z)]
            omega

/-- Snapshot order produced by `SortCmpContextInfoByName`: case-insensitive
comparison of the names is nonpositive. -/
def nameLe (a b : ContextInfo) : Prop := strcasecmp a.1 b.1 ≤ 0

theorem mem_insertByName {x y : ContextInfo} : ∀ {l : List ContextInfo},
    y ∈ insertByName x l → y = x ∨ y ∈ l := by
  intro l
  induction l with
  | nil =>
    intro h
    simp only [insertByName] at h
    exact Or.inl (by simpa using h)
  | cons a rest ih =>
    intro h
    simp only [insertByName] at h
    by_cases hc : strcasecmp x.1 a.1 ≤ 0
    · rw [if_pos hc] at h
      rcases List.mem_cons.mp h with h1 | h2
      · exact Or.inl h1
      · exact Or.inr h2
    · rw [if_neg hc] at h
      rcases List.mem_cons.mp h with h1 | h2
      · exact Or.inr (by simp [h1])
      · rcases ih h2 with h3 | h4
        · exact Or.inl h3
        · exact Or.inr (List.mem_cons_of_mem a h4)

theorem pairwise_insertByName (x : ContextInfo) :
    ∀ l : List ContextInfo, noNul x.1 → (∀ y ∈ l, noNul y.1) →
      l.Pairwise nameLe → (insertByName x l).Pairwise nameLe := by
  intro l
  induction l with
  | nil => intro _ _ _; simp [insertByName]
  | cons a rest ih =>
    intro hx hl hp
    rw [List.pairwise_cons] at hp
    simp only [insertByName]
    by_cases hc : strcasecmp x.1 a.1 ≤ 0
    · rw [if_pos hc, List.pairwise_cons]
      refine ⟨?_, List.pairwise_cons.mpr hp⟩
      intro z hz
      rcases List.mem_cons.mp hz with hz1 | hz2
      · subst hz1; exact hc
      · exact strcasecmp_trans x.1 a.1 z.1 hx (hl a (by simp)) hc (hp.1 z hz2)
    · rw [if_neg hc, List.pairwise_cons]
      refine ⟨?_, ih hx (fun y hy => hl y (by simp [hy])) hp.2⟩
      intro z hz
      rcases mem_insertByName hz with hz1 | hz2
      · subst hz1
        rcases strcasecmp_le_total z.1 a.1 with h | h
        · exact absurd h hc
        · exact h
      · exact hp.1 z hz2

theorem mem_sortByName {y : ContextInfo} : ∀ {l : List ContextInfo},
    y ∈ sortByName l → y ∈ l := by
  intro l
  induction l with
  | nil => intro h; simp [sortByName] at h
  | cons a rest ih =>
    intro h
    simp only [sortByName] at h
    rcases mem_insertByName h with h1 | h2
    · simp [h1]
    · exact List.mem_cons_of_mem a (ih h2)

theorem pairwise_sortByName : ∀ l : List ContextInfo, (∀ y ∈ l, noNul y.1) →
    (sortByName l).Pairwise nameLe := by
  intro l
  induction l with
  | nil => intro _; simp [sortByName]
  | cons a rest ih =>
    intro hl
    simp only [sortByName]
    refine pairwise_insertByName a (sortByName rest) (hl a (by simp)) ?_ (ih ?_)
    · intro y hy
      exact hl y (List.mem_cons_of_mem a (mem_sortByName hy))
    · intro y hy
      exact hl y (List.mem_cons_of_mem a hy)

theorem collectMatches_mem (pat : Option (List Char)) :
    ∀ (l : List ContextInfo) (n : Nat) (res : List ContextInfo),
      collectMatches pat l n = Except.ok res → ∀ x ∈ res, x ∈ l := by
  intro l
  induction l with
  | nil =>
    intro n res h x hx
    simp only [collectMatches, Except.ok.injEq] at h
    subst h
    simp at hx
  | cons c rest ih =>
    intro n res h x hx
    simp only [collectMatches] at h
    by_cases hm : PrvMatchContextName c.1 pat = true
    · rw [if_pos hm] at h
      by_cases hov : n ≥ PMLOG_MAX_NUM_CONTEXTS + 1
      · rw [if_pos hov] at h
        simp at h
      · rw [if_neg hov] at h
        cases hr : collectMatches pat rest (n + 1) with
        | ok l2 =>
          rw [hr] at h
          simp only [Except.ok.injEq] at h
          subst h
          rcases List.mem_cons.mp hx with h1 | h2
          · simp [h1]
          · exact List.mem_cons_of_mem c (ih (n + 1) l2 hr x h2)
        | error e =>
          rw [hr] at h
          simp at h
    · rw [if_neg hm] at h
      exact List.mem_cons_of_mem c (ih n res h x hx)

/-- C9: every snapshot the enumeration produces is sorted in ascending
case-insensitive name order, and the enumeration is a function of the
registry contents alone — two worlds with the same registry yield the
same snapshot. -/
theorem contextList_sorted_deterministic :
    (∀ (ctxs : List ContextInfo) (pat : Option (List Char)) (M : List ContextInfo),
      (∀ c ∈ ctxs, noNul c.1) →
      PrvGetContextList ctxs pat = Except.ok M → M.Pairwise nameLe) ∧
    (∀ (w1 w2 : World) (pat : Option (List Char)), w1.ctxs = w2.ctxs →
      PrvGetContextList w1.ctxs pat = PrvGetContextList w2.ctxs pat) := by
  constructor
  · intro ctxs pat M hno h
    unfold PrvGetContextList at h
    split at h
    · simp at h
    · cases hc : collectMatches pat ctxs 0 with
      | error e => rw [hc] at h; simp at h
      | ok l =>
        rw [hc] at h
        simp only [Except.ok.injEq] at h
        subst h
        exact pairwise_sortByName l
          (fun y hy => hno y (collectMatches_mem pat ctxs 0 l hc y hy))
  · intro w1 w2 pat h
    rw [h]

/-- C9 witness: a two-context registry enumerated without a pattern. -/
theorem contextList_sorted_deterministic_witness :
    List.Pairwise nameLe ([(("A".toList : List Char), (2 : Int)), ("b".toList, 1)]) := by
  exact contextList_sorted_deterministic.1
    ([(("b".toList : List Char), (1 : Int)), ("A".toList, 2)]) none
    ([(("A".toList : List Char), (2 : Int)), ("b".toList, 1)])
    (by decide) (by decide)

/-- Library calls that mutate the registry or emit a message. -/
def isMutatingCall : LibCall → Bool
  | LibCall.setContextLevel _ _ => true
  | LibCall.getContext _ => true
  | LibCall.print _ _ _ => true
  | LibCall.findContext _ => false

/-- Between the two worlds no mutating or emitting library call was made,
the registry is unchanged and nothing was written to the kernel device. -/
def noMut (w w1 : World) : Prop :=
  w1.calls.filter isMutatingCall = w.calls.filter isMutatingCall ∧
  w1.ctxs = w.ctxs ∧ w1.kmsg = w.kmsg

theorem noMut_refl (w : World) : noMut w w := ⟨rfl, rfl, rfl⟩

theorem noMut_trans {w1 w2 w3 : World} (h1 : noMut w1 w2) (h2 : noMut w2 w3) :
    noMut w1 w3 :=
  ⟨h2.1.trans h1.1, h2.2.1.trans h1.2.1, h2.2.2.trans h1.2.2⟩

theorem noMut_say (w : World) (m : OutMsg) : noMut w (w.say m) :=
  ⟨rfl, rfl, rfl⟩

theorem findContext_snd (w : World) (name : List Char) :
    (World.findContext w name).2 =
      { w with calls := w.calls ++ [LibCall.findContext name] } := by
  unfold World.findContext
  split <;> rfl

theorem noMut_findContext (w : World) (name : List Char) :
    noMut w (World.findContext w name).2 := by
  rw [findContext_snd]
  refine ⟨?_, rfl, rfl⟩
  simp [List.filter_append, isMutatingCall]

theorem noMut_foldl {α : Type} (g : World → α → World)
    (hg : ∀ (w : World) (c : α), noMut w (g w c)) :
    ∀ (l : List α) (w : World), noMut w (l.foldl g w) := by
  intro l
  induction l with
  | nil => intro w; exact noMut_refl w
  | cons c rest ih => intro w; exact noMut_trans (hg w c) (ih (g w c))

/-- Postcondition of an argument-parsing loop: an early return carries a
parameter error and performed no mutation; a completed parse also
performed no mutation (`proj` extracts the carried world). -/
def loopPost {α : Type} (proj : α → World) (w : World) :
    Except (Result × World) α → Prop
  | Except.error rw0 => rw0.1 = Result.RESULT_PARAM_ERR ∧ noMut w rw0.2
  | Except.ok st => noMut w (proj st)

theorem loopPost_mono {α : Type} (proj : α → World) {w w1 : World}
    (h : noMut w w1) :
    ∀ {e : Except (Result × World) α}, loopPost proj w1 e → loopPost proj w e := by
  intro e he
  cases e with
  | error rw0 => exact ⟨he.1, noMut_trans h he.2⟩
  | ok st => exact noMut_trans h he

theorem DoCmdSetLoop_post :
    ∀ (args : List (List Char)) (w : World) (a b : Option (List Char))
      (lv : Option Int), loopPost Prod.fst w (DoCmdSetLoop w args a b lv) := by
  intro args
  induction args with
  | nil => intro w a b lv; exact noMut_refl w
  | cons arg rest ih =>
    intro w a b lv
    simp only [DoCmdSetLoop]
    cases a with
    | none =>
      by_cases hwild : PrvIsWildcardContextName (PrvResolveContextNameAlias arg) = true
      · rw [if_pos hwild]
        exact ih w _ b lv
      · rw [if_neg hwild]
        cases hf : World.findContext w (PrvResolveContextNameAlias arg) with
        | mk fst w1 =>
          have hm : noMut w w1 := by
            have h2 := noMut_findContext w (PrvResolveContextNameAlias arg)
            rw [hf] at h2
            exact h2
          cases fst with
          | ok hh => exact loopPost_mono _ hm (ih w1 _ _ lv)
          | error e => exact ⟨rfl, noMut_trans hm (noMut_say w1 _)⟩
    | some m0 =>
      cases lv with
      | none =>
        cases hparse : PmLogStringToLevel arg with
        | none => exact ⟨rfl, noMut_say w _⟩
        | some l0 => exact ih w (some m0) b (some l0)
      | some l0 => exact ⟨rfl, noMut_say w _⟩

theorem DoCmdLogLoop_post :
    ∀ (args : List (List Char)) (w : World) (cn cx : Option (List Char))
      (lv : Option Int) (msg : Option (List Char)),
      loopPost Prod.fst w (DoCmdLogLoop w args cn cx lv msg) := by
  intro args
  induction args with
  | nil => intro w cn cx lv msg; exact noMut_refl w
  | cons arg rest ih =>
    intro w cn cx lv msg
    simp only [DoCmdLogLoop]
    cases cn with
    | none =>
      cases hf : World.findContext w (PrvResolveContextNameAlias arg) with
      | mk fst w1 =>
        have hm : noMut w w1 := by
          have h2 := noMut_findContext w (PrvResolveContextNameAlias arg)
          rw [hf] at h2
          exact h2
        cases fst with
        | ok hh => exact loopPost_mono _ hm (ih w1 _ _ lv msg)
        | error e => exact ⟨rfl, noMut_trans hm (noMut_say w1 _)⟩
    | some c0 =>
      cases lv with
      | none =>
        cases hparse : PmLogStringToLevel arg with
        | none => exact ⟨rfl, noMut_say w _⟩
        | some l0 =>
          simp only []
          split
          · exact ⟨rfl, noMut_say w _⟩
          · exact ih w (some c0) cx (some l0) msg
      | some l0 =>
        cases msg with
        | none => exact ih w (some c0) cx (some l0) (some arg)
        | some m0 => exact ⟨rfl, noMut_say w _⟩

theorem DoCmdKLogLoop_cons (w : World) (arg : List Char)
    (rest : List (List Char)) (level : Int) (msg : Option (List Char)) :
    DoCmdKLogLoop w (arg :: rest) level msg =
      (if (byte0 arg == ('-').toNat) = true then
        if (strcmp arg ("-p".toList) == 0) = true then
          match rest with
          | [] => Except.error (Result.RESULT_PARAM_ERR, w.say OutMsg.pRequiresValue)
          | v :: rest2 =>
            match PmLogStringToLevel v with
            | none =>
              Except.error (Result.RESULT_PARAM_ERR, w.say (OutMsg.invalidLevel v))
            | some l => DoCmdKLogLoop w rest2 l msg
        else Except.error (Result.RESULT_PARAM_ERR, w.say (OutMsg.invalidParameter arg))
      else
        match msg with
        | none => DoCmdKLogLoop w rest level (some arg)
        | some _ =>
          Except.error (Result.RESULT_PARAM_ERR, w.say (OutMsg.invalidParameter arg))) := by
  cases rest with
  | nil => rfl
  | cons v rest2 => rfl

theorem DoCmdKLogLoop_post_aux :
    ∀ (n : Nat) (args : List (List Char)), args.length ≤ n →
      ∀ (w : World) (level : Int) (msg : Option (List Char)),
        loopPost Prod.fst w (DoCmdKLogLoop w args level msg) := by
  intro n
  induction n with
  | zero =>
    intro args hlen w level msg
    have hargs : args = [] := by
      cases args with
      | nil => rfl
      | cons a r => simp at hlen
    subst hargs
    exact noMut_refl w
  | succ n ih =>
    intro args hlen w level msg
    cases args with
    | nil => exact noMut_refl w
    | cons arg rest =>
      rw [DoCmdKLogLoop_cons]
      by_cases hflag : (byte0 arg == ('-').toNat) = true
      · rw [if_pos hflag]
        by_cases hp : (strcmp arg ("-p".toList) == 0) = true
        · rw [if_pos hp]
          cases rest with
          | nil => exact ⟨rfl, noMut_say w _⟩
          | cons v rest2 =>
            simp only []
            cases hparse : PmLogStringToLevel v with
            | none => exact ⟨rfl, noMut_say w _⟩
            | some l0 =>
              refine ih rest2 ?_ w l0 msg
              simp only [List.length_cons] at hlen
              omega
        · rw [if_neg hp]
          exact ⟨rfl, noMut_say w _⟩
      · rw [if_neg hflag]
        cases msg with
        | none =>
          refine ih rest ?_ w level (some arg)
          simp only [List.length_cons] at hlen
          omega
        | some m0 => exact ⟨rfl, noMut_say w _⟩

theorem DoCmdKLogLoop_post (args : List (List Char)) (w : World) (level : Int)
    (msg : Option (List Char)) :
    loopPost Prod.fst w (DoCmdKLogLoop w args level msg) :=
  DoCmdKLogLoop_post_aux args.length args (le_refl _) w level msg

theorem DoCmdDefLoop_post :
    ∀ (args : List (List Char)) (w : World) (cn : Option (List Char))
      (lv : Option Int), loopPost Prod.fst w (DoCmdDefLoop w args cn lv) := by
  intro args
  induction args with
  | nil => intro w cn lv; exact noMut_refl w
  | cons arg rest ih =>
    intro w cn lv
    simp only [DoCmdDefLoop]
    cases cn with
    | none =>
      cases hf : World.findContext w (PrvResolveContextNameAlias arg) with
      | mk fst w1 =>
        have hm : noMut w w1 := by
          have h2 := noMut_findContext w (PrvResolveContextNameAlias arg)
          rw [hf] at h2
          exact h2
        cases fst with
        | ok hh => exact ⟨rfl, noMut_trans hm (noMut_say w1 _)⟩
        | error e => exact loopPost_mono _ hm (ih w1 _ lv)
    | some c0 =>
      cases lv with
      | none =>
        cases hparse : PmLogStringToLevel arg with
        | none => exact ⟨rfl, noMut_say w _⟩
        | some l0 => exact ih w (some c0) (some l0)
      | some l0 => exact ⟨rfl, noMut_say w _⟩

theorem DoCmdSetApply_ne_param (lvl : Int) (M : List ContextInfo) (w : World) :
    (DoCmdSetApply lvl M w).1 ≠ Result.RESULT_PARAM_ERR := by
  have h := (DoCmdSetApply_spec lvl M w).2.2
  rw [h]
  split <;> simp

theorem DoCmdSet_param_noMut (args : List (List Char)) (w : World)
    (h : (DoCmdSet args w).1 = Result.RESULT_PARAM_ERR) :
    noMut w (DoCmdSet args w).2 := by
  have hpost := DoCmdSetLoop_post args w none none none
  unfold DoCmdSet at h ⊢
  cases hl : DoCmdSetLoop w args none none none with
  | error rw0 =>
    rw [hl] at h hpost
    exact hpost.2
  | ok st =>
    rw [hl] at h hpost
    obtain ⟨w1, a, b, lv⟩ := st
    simp only [] at h
    cases a with
    | none => exact noMut_trans hpost (noMut_say w1 _)
    | some m =>
      simp only [] at h
      cases lv with
      | none => exact noMut_trans hpost (noMut_say w1 _)
      | some lvl =>
        simp only [] at h
        cases b with
        | none =>
          simp only [] at h
          split at h
          · simp at h
          · split at h
            · simp at h
            · exact absurd h (DoCmdSetApply_ne_param lvl _ w1)
        | some hc =>
          simp only [] at h
          split at h
          · simp at h
          · simp at h

theorem DoCmdLog_param_noMut (args : List (List Char)) (w : World)
    (h : (DoCmdLog args w).1 = Result.RESULT_PARAM_ERR) :
    noMut w (DoCmdLog args w).2 := by
  have hpost := DoCmdLogLoop_post args w (logStart args).1 (logStart args).2.1
    (logStart args).2.2 none
  unfold DoCmdLog at h ⊢
  cases hl : DoCmdLogLoop w args (logStart args).1 (logStart args).2.1
      (logStart args).2.2 none with
  | error rw0 =>
    rw [hl] at h hpost
    exact hpost.2
  | ok st =>
    rw [hl] at h hpost
    obtain ⟨w1, cn, cx, lv, msg⟩ := st
    simp only [] at h
    cases cn with
    | none => exact noMut_trans hpost (noMut_say w1 _)
    | some c0 =>
      simp only [] at h
      cases lv with
      | none => exact noMut_trans hpost (noMut_say w1 _)
      | some l0 =>
        simp only [] at h
        cases msg with
        | none => exact noMut_trans hpost (noMut_say w1 _)
        | some m0 =>
          simp only [] at h
          split at h
          · simp at h
          · simp at h

theorem WriteKMsg_ne_param (w : World) (p : Int) (m : List Char) :
    (WriteKMsg w p m).1 ≠ Result.RESULT_PARAM_ERR := by
  unfold WriteKMsg
  split
  · simp
  · split <;> split <;> simp

theorem DoCmdKLog_param_noMut (args : List (List Char)) (w : World)
    (h : (DoCmdKLog args w).1 = Result.RESULT_PARAM_ERR) :
    noMut w (DoCmdKLog args w).2 := by
  have hpost := DoCmdKLogLoop_post args w kPmLogLevel_Notice none
  unfold DoCmdKLog at h ⊢
  cases hl : DoCmdKLogLoop w args kPmLogLevel_Notice none with
  | error rw0 =>
    rw [hl] at h hpost
    exact hpost.2
  | ok st =>
    rw [hl] at h hpost
    obtain ⟨w1, level, msg⟩ := st
    cases msg with
    | none => exact noMut_trans hpost (noMut_say w1 _)
    | some m0 => exact absurd h (WriteKMsg_ne_param w1 level m0)

theorem DoCmdDef_param_noMut (args : List (List Char)) (w : World)
    (h : (DoCmdDef args w).1 = Result.RESULT_PARAM_ERR) :
    noMut w (DoCmdDef args w).2 := by
  have hpost := DoCmdDefLoop_post args w none none
  unfold DoCmdDef at h ⊢
  cases hl : DoCmdDefLoop w args none none with
  | error rw0 =>
    rw [hl] at h hpost
    exact hpost.2
  | ok st =>
    rw [hl] at h hpost
    obtain ⟨w1, cn, lv⟩ := st
    simp only [] at h
    cases cn with
    | none => exact noMut_trans hpost (noMut_say w1 _)
    | some c0 =>
      simp only [] at h
      split at h
      · simp at h
      · cases lv with
        | none => simp at h
        | some l0 =>
          simp only [] at h
          split at h
          · simp at h
          · simp at h

theorem DoCmdShow_noMut (args : List (List Char)) (w : World) :
    noMut w (DoCmdShow args w).2 := by
  simp only [DoCmdShow]
  split
  · exact noMut_say w _
  · split
    · exact noMut_say w _
    · rename_i infos _
      have hw1 : noMut w (infos.foldl
          (fun acc c => acc.say (OutMsg.showContext c.1 (showLevelStr c.2))) w) :=
        noMut_foldl _ (fun w2 c => noMut_say w2 _) infos w
      split
      · split
        · split
          · exact noMut_trans hw1 (noMut_say _ _)
          · exact noMut_trans hw1 (noMut_say _ _)
        · exact hw1
      · exact hw1

theorem DoCmdReConf_param_noMut (args : List (List Char)) (w : World)
    (h : (DoCmdReConf args w).1 = Result.RESULT_PARAM_ERR) :
    noMut w (DoCmdReConf args w).2 := by
  cases args with
  | cons a r => exact noMut_say w _
  | nil =>
    simp only [DoCmdReConf] at h
    split at h
    · simp at h
    · simp at h

theorem DoCmdFlush_ne_param (w : World) :
    (DoCmdFlush w).1 ≠ Result.RESULT_PARAM_ERR := by
  unfold DoCmdFlush
  split
  · simp
  · split <;> simp

theorem dispatchCmd_param_noMut
    (v : List (List Char) → World → Result × World) (args : List (List Char))
    (w : World)
    (hv : ∀ cmd rest, args = cmd :: rest → ¬ strcmp cmd ("view".toList) = 0)
    (h : (dispatchCmd v args w).1 = Result.RESULT_PARAM_ERR) :
    noMut w (dispatchCmd v args w).2 := by
  cases args with
  | nil => exact noMut_say w _
  | cons cmd rest =>
    simp only [dispatchCmd] at h ⊢
    by_cases h1 : (strcmp cmd ("def".toList) == 0) = true
    · rw [if_pos h1] at h ⊢
      exact DoCmdDef_param_noMut rest w h
    · rw [if_neg h1] at h ⊢
      by_cases h2 : (strcmp cmd ("log".toList) == 0) = true
      · rw [if_pos h2] at h ⊢
        exact DoCmdLog_param_noMut rest w h
      · rw [if_neg h2] at h ⊢
        by_cases h3 : (strcmp cmd ("klog".toList) == 0) = true
        · rw [if_pos h3] at h ⊢
          exact DoCmdKLog_param_noMut rest w h
        · rw [if_neg h3] at h ⊢
          by_cases h4 : (strcmp cmd ("reconf".toList) == 0) = true
          · rw [if_pos h4] at h ⊢
            exact DoCmdReConf_param_noMut rest w h
          · rw [if_neg h4] at h ⊢
            by_cases h5 : (strcmp cmd ("set".toList) == 0) = true
            · rw [if_pos h5] at h ⊢
              exact DoCmdSet_param_noMut rest w h
            · rw [if_neg h5] at h ⊢
              by_cases h6 : (strcmp cmd ("show".toList) == 0) = true
              · rw [if_pos h6]
                exact DoCmdShow_noMut rest w
              · rw [if_neg h6] at h ⊢
                by_cases h7 : (strcmp cmd ("view".toList) == 0) = true
                · exact absurd (beq_iff_eq.mp h7) (hv cmd rest rfl)
                · rw [if_neg h7] at h ⊢
                  by_cases h8 : (strcmp cmd ("flush".toList) == 0) = true
                  · rw [if_pos h8] at h
                    exact absurd h (DoCmdFlush_ne_param w)
                  · rw [if_neg h8] at h ⊢
                    by_cases h9 : (strcmp cmd ("help".toList) == 0 ||
                        strcmp cmd ("-help".toList) == 0) = true
                    · rw [if_pos h9] at h
                      simp at h
                    · rw [if_neg h9] at h ⊢
                      exact noMut_say w _

/-- C3 counterexample: `set` with an unresolvable exact context name ends
in a parameter error, yet the call trace contains the external library's
find call made for that offending argument before the error was
reported. -/
theorem set_param_err_after_find_call :
    (runMain viewNop (["set".toList, "bogus".toList, "err".toList]) w0).1 =
      Result.RESULT_PARAM_ERR ∧
    LibCall.findContext ("bogus".toList) ∈
      (runMain viewNop (["set".toList, "bogus".toList, "err".toList]) w0).2.1.calls := by
  constructor
  · decide
  · decide

/-- C3 amended: every invocation of a spec-covered command (any command
but `view`) that ends in a parameter error has made no mutating or
emitting external call before the error is reported — the registry, the
kernel sink, and the mutating part of the call trace are untouched; only
read-only detection calls (context lookup, level parsing) may have been
made on the offending argument. -/
theorem paramErr_no_mutation
    (v : List (List Char) → World → Result × World) (args : List (List Char))
    (w : World)
    (hv : ∀ cmd rest, args = cmd :: rest → ¬ strcmp cmd ("view".toList) = 0)
    (h : (runMain v args w).1 = Result.RESULT_PARAM_ERR) :
    noMut w (runMain v args w).2.1 := by
  have hres : (dispatchCmd v args w).1 = Result.RESULT_PARAM_ERR := h
  have hd := dispatchCmd_param_noMut v args w hv hres
  have hw2 : (runMain v args w).2.1 =
      (if ((dispatchCmd v args w).1 == Result.RESULT_PARAM_ERR) = true
        then (dispatchCmd v args w).2.say OutMsg.suggestHelp
        else (dispatchCmd v args w).2) := rfl
  rw [hw2, hres]
  simp only [beq_self_eq_true, if_true]
  exact noMut_trans hd (noMut_say _ _)

/-- C3 amended, witness: `show` with an extra argument is a parameter
error that mutated nothing. -/
theorem paramErr_no_mutation_witness :
    noMut w0 (runMain viewNop (["show".toList, "a".toList, "b".toList]) w0).2.1 := by
  exact paramErr_no_mutation viewNop (["show".toList, "a".toList, "b".toList]) w0
    (by intro cmd rest heq; cases heq; decide) (by decide)

/-- C8 counterexample: a successful `klog` invocation that was given no
level writes the line with the default notice priority prefix `<5>` — the
priority prefix is not omitted when no level was given. -/
theorem klog_default_prefix_concrete :
    (DoCmdKLog (["hi".toList]) w0).1 = Result.RESULT_OK ∧
    (DoCmdKLog (["hi".toList]) w0).2.kmsg = [("<5>hi\n".toList)] ∧
    ("<5>hi\n".toList) ≠ ("hi\n".toList) := by
  refine ⟨by decide, by decide, by decide⟩

/-- C8 amended: a successful kernel write appends exactly the line
`<priority>message` and a newline, where the decimal priority in angle
brackets is omitted exactly when the priority is negative (the "none"
sentinel); `klog -p err msg` hence writes `<3>msg` plus newline, and a
`klog` invocation with no `-p` flag writes the default notice priority
prefix `<5>`. -/
theorem klog_line_spec (w : World) (priority : Int) (msgStr : List Char)
    (hopen : w.kmsgOpenFails = false) (hwrite : w.kmsgWriteFails = false) :
    ((WriteKMsg w priority msgStr).1 = Result.RESULT_OK ∧
      (WriteKMsg w priority msgStr).2.kmsg = w.kmsg ++
        [(if priority ≥ 0 then
            "<".toList ++ Nat.toDigits 10 priority.toNat ++ ">".toList
          else []) ++ msgStr ++ [Char.ofNat 10]]) ∧
    (DoCmdKLog (["-p".toList, "err".toList, "boom".toList]) w).2.kmsg =
      w.kmsg ++ [("<3>boom\n".toList)] ∧
    (∀ m : List Char, byte0 m ≠ ('-').toNat →
      (DoCmdKLog ([m]) w).2.kmsg =
        w.kmsg ++ [("<5>".toList ++ m ++ [Char.ofNat 10])]) := by
  refine ⟨⟨?_, ?_⟩, ?_, ?_⟩
  · simp [WriteKMsg, hopen, hwrite]
  · simp [WriteKMsg, hopen, hwrite]
  · have hp : (byte0 ("-p".toList) == ('-').toNat) = true := by decide
    have hpp : (strcmp ("-p".toList) ("-p".toList) == 0) = true := by decide
    have hb : (byte0 ("boom".toList) == ('-').toNat) = false := by decide
    have hlv : PmLogStringToLevel ("err".toList) = some 3 := by decide
    have hd3 : Nat.toDigits 10 3 = ['3'] := by decide
    simp only [DoCmdKLog, DoCmdKLogLoop, hp, hpp, hb, hlv, if_true, if_false,
      WriteKMsg]
    simp [hopen, hwrite, hd3]
  · intro m hm
    have hbeq : (byte0 m == ('-').toNat) = false := by
      rw [beq_eq_false_iff_ne]
      exact hm
    have hd5 : Nat.toDigits 10 5 = ['5'] := by decide
    simp only [DoCmdKLog, DoCmdKLogLoop, hbeq, if_false, WriteKMsg,
      kPmLogLevel_Notice]
    simp [hopen, hwrite, hd5]

/-- C8 amended, witness: the kernel write evaluated concretely for the
`err` level and for the "none" sentinel. -/
theorem klog_line_spec_witness :
    ((WriteKMsg w0 3 ("boom".toList)).1 = Result.RESULT_OK ∧
      (WriteKMsg w0 3 ("boom".toList)).2.kmsg = w0.kmsg ++
        [(if (3 : Int) ≥ 0 then
            "<".toList ++ Nat.toDigits 10 ((3 : Int)).toNat ++ ">".toList
          else []) ++ "boom".toList ++ [Char.ofNat 10]]) ∧
    (DoCmdKLog (["-p".toList, "err".toList, "boom".toList]) w0).2.kmsg =
      w0.kmsg ++ [("<3>boom\n".toList)] ∧
    (∀ m : List Char, byte0 m ≠ ('-').toNat →
      (DoCmdKLog ([m]) w0).2.kmsg =
        w0.kmsg ++ [("<5>".toList ++ m ++ [Char.ofNat 10])]) := by
  exact klog_line_spec w0 3 ("boom".toList) rfl rfl

/-- C2 counterexample: invoking `help` yields the help-shown outcome, yet
the process exit status is not success — `main` maps only `RESULT_OK` to
`EXIT_SUCCESS`. -/
theorem help_exit_failure :
    (runMain viewNop (["help".toList]) w0).1 = Result.RESULT_HELP ∧
    (runMain viewNop (["help".toList]) w0).2.2 ≠ EXIT_SUCCESS := by
  constructor
  · decide
  · decide

/-- C2 amended: the process exit status is success exactly when the
outcome is `RESULT_OK`; help-shown, parameter-error and run-error outcomes
all yield a non-success exit status. -/
theorem exit_success_iff_ok (v : List (List Char) → World → Result × World)
    (args : List (List Char)) (w : World) :
    (runMain v args w).2.2 = EXIT_SUCCESS ↔
      (runMain v args w).1 = Result.RESULT_OK := by
  simp only [runMain]
  cases (dispatchCmd v args w).1 <;> simp [EXIT_SUCCESS, EXIT_FAILURE]

end PmLogCtl
